import Mathlib

/-!
Verification of the constraint-representation core (package `compiled`,
file `internal/backend/compiled/r1c.go`): Terms packed into a fixed-width
unsigned value, LinearExpressions, the canonical ordering used to sort
them, and the textual rendering of rank-1 constraints.

Machine integers are embedded as `Nat`; Go panics become `Except` errors;
the `math/big` coefficient table becomes `List Int` (whose decimal
rendering agrees with `big.Int.String`).
-/

namespace Compiled

/-- `Visibility` encodes a variable (wire) visibility.  In the source it is
`type Visibility uint8`, so any 8-bit value inhabits the type; the five
declared constants follow. -/
abbrev Visibility := Nat

/-- `Unset Visibility = iota` (first constant, value 0). -/
def Unset : Visibility := 0

/-- `Internal` (value 1). -/
def Internal : Visibility := 1

/-- `Secret` (value 2). -/
def Secret : Visibility := 2

/-- `Public` (value 3). -/
def Public : Visibility := 3

/-- `Virtual` (value 4). -/
def Virtual : Visibility := 4

/-- The set of well-formed visibility tags: exactly the five declared
constants. -/
def validVisibility (v : Visibility) : Prop :=
  v = Unset ∨ v = Internal ∨ v = Secret ∨ v = Public ∨ v = Virtual

instance (v : Visibility) : Decidable (validVisibility v) := by
  unfold validVisibility
  infer_instance

/-- A `Term` is a packed reference `(coefficientId, variableId, visibility)`
stored in one fixed-width unsigned value. -/
abbrev Term := Nat

/-- Modelled from the spec: the packed bit layout of `Term` lives in
`term.go`, which is not part of the available source fragment; the spec
states the triple is packed into one fixed-width unsigned value with
implementation-chosen, documented widths.  We choose: visibility in the
low 3 bits, `variableId` in the next 29 bits, `coefficientId` in the
next 32 bits (64 bits total). -/
def nbBitsVisibility : Nat := 3

/-- Modelled from the spec: width chosen for `variableId` (see
`nbBitsVisibility`). -/
def nbBitsVariableID : Nat := 29

/-- Modelled from the spec: width chosen for `coefficientId` (see
`nbBitsVisibility`). -/
def nbBitsCoeffID : Nat := 32

/-- Modelled from the spec: the raw packing of a triple into the single
unsigned value, used by `pack` after validation. -/
def packRaw (coeffID variableID visibility : Nat) : Nat :=
  coeffID * 2 ^ (nbBitsVariableID + nbBitsVisibility)
    + variableID * 2 ^ nbBitsVisibility + visibility

/-- Errors of the packing constructor, from the spec (§4.1, §7). -/
inductive PackError where
  | InvalidVisibility
  | RangeOverflow
deriving DecidableEq, Repr

/-- Modelled from the spec: `pack(coefficientId, variableId, visibility)`
fails with `InvalidVisibility` if the visibility is outside the five
defined values and with `RangeOverflow` if either id exceeds its
representable width; otherwise it returns the packed value. -/
def pack (coeffID variableID visibility : Nat) :
    Except PackError Term :=
  if ¬ validVisibility visibility then .error .InvalidVisibility
  else if coeffID ≥ 2 ^ nbBitsCoeffID ∨ variableID ≥ 2 ^ nbBitsVariableID then
    .error .RangeOverflow
  else .ok (packRaw coeffID variableID visibility)

/-- Modelled from the spec: `Unpack` decomposes a packed `Term` back into
`(coefficientId, variableId, visibility)`, the lossless inverse of `pack`
(this is the `Term.Unpack` used by `LinearExpression.Less` in the source
fragment). -/
def Term.Unpack (t : Nat) : Nat × Nat × Nat :=
  (t / 2 ^ (nbBitsVariableID + nbBitsVisibility),
   t / 2 ^ nbBitsVisibility % 2 ^ nbBitsVariableID,
   t % 2 ^ nbBitsVisibility)

/-- `Term.CoeffID`, a projection expressible through `Unpack`. -/
def Term.CoeffID (t : Nat) : Nat := (Term.Unpack t).1

/-- `Term.VariableID`, a projection expressible through `Unpack`. -/
def Term.VariableID (t : Nat) : Nat := (Term.Unpack t).2.1

/-- `Term.VariableVisibility`, a projection expressible through `Unpack`. -/
def Term.VariableVisibility (t : Nat) : Nat := (Term.Unpack t).2.2

/-- `LinearExpression` represents a linear expression of variables:
`type LinearExpression []Term`. -/
abbrev LinearExpression := List Term

/-- `Clone` returns a copy of the underlying slice:
`res := make(LinearExpression, len(l)); copy(res, l); return res` —
a fresh sequence built element by element. -/
def LinearExpression.Clone : LinearExpression → LinearExpression
  | [] => []
  | t :: ts => t :: LinearExpression.Clone ts

/-- `Len` returns the length of the `LinearExpression`. -/
def LinearExpression.Len (l : LinearExpression) : Nat := l.length

/-- `Swap` swaps terms in the `LinearExpression` (in the embedding, the
in-place update becomes a returned value). -/
def LinearExpression.Swap (l : LinearExpression) (i j : Nat) : LinearExpression :=
  (l.set i (l.getD j 0)).set j (l.getD i 0)

/-- The comparison the source performs on the two unpacked terms inside
`LinearExpression.Less`:
`if iVis == jVis { return iID < jID }; return iVis > jVis`. -/
def Term.less (a b : Nat) : Bool :=
  let ua := Term.Unpack a
  let ub := Term.Unpack b
  if ua.2.2 = ub.2.2 then decide (ua.2.1 < ub.2.1) else decide (ub.2.2 < ua.2.2)

/-- `Less` returns true if the term at `i` ranks before the term at `j`
(implements the sort interface). -/
def LinearExpression.Less (l : LinearExpression) (i j : Nat)
    (hi : i < l.length) (hj : j < l.length) : Bool :=
  Term.less (l.get ⟨i, hi⟩) (l.get ⟨j, hj⟩)

/-- `R1C` is one rank-1 constraint, holding the three linear expressions
of `L · R = O`. -/
structure R1C where
  L : LinearExpression
  R : LinearExpression
  O : LinearExpression

/-- Failures of the rendering path: the out-of-bounds coefficient-table
lookup `coeffs[t.CoeffID()]` and the `default: panic("not implemented")`
branch of the visibility switch. -/
inductive RenderError where
  | IndexOutOfRange
  | InvalidVisibility
deriving DecidableEq, Repr

/-- Result type of the rendering functions. -/
abbrev RenderResult := Except RenderError String

/-- `Term.string`: writes `<coefficient>*<visibility letter><variableId>`.
The coefficient lookup `coeffs[t.CoeffID()].String()` comes first (its
bounds check fails with `IndexOutOfRange`); then the visibility switch
with cases Internal/Public/Secret/Virtual/Unset, whose default branch
panics (`InvalidVisibility`). -/
def Term.string (t : Term) (coeffs : List Int) : RenderResult := do
  let c ← match coeffs.get? (Term.CoeffID t) with
    | some c => Except.ok c
    | none => Except.error RenderError.IndexOutOfRange
  let letter ← match Term.VariableVisibility t with
    | 1 => Except.ok "i"
    | 3 => Except.ok "p"
    | 2 => Except.ok "s"
    | 4 => Except.ok "v"
    | 0 => Except.ok "u"
    | _ => Except.error RenderError.InvalidVisibility
  Except.ok (toString c ++ "*" ++ letter ++ toString (Term.VariableID t))

/-- `LinearExpression.string`: renders each term, joining consecutive
terms with `" + "`. -/
def LinearExpression.string : LinearExpression → List Int → RenderResult
  | [], _ => Except.ok ""
  | [t], coeffs => Term.string t coeffs
  | t :: rest, coeffs => do
    let s ← Term.string t coeffs
    let r ← LinearExpression.string rest coeffs
    Except.ok (s ++ " + " ++ r)

/-- `R1C.String`: `"L[" L "] * R[" R "] = O[" O "]"`. -/
def R1C.String (r : R1C) (coeffs : List Int) : RenderResult := do
  let ls ← LinearExpression.string r.L coeffs
  let rs ← LinearExpression.string r.R coeffs
  let os ← LinearExpression.string r.O coeffs
  Except.ok ("L[" ++ ls ++ "] * R[" ++ rs ++ "] = O[" ++ os ++ "]")

/-! ### Shared helper lemmas -/

/-- Unpacking a raw-packed triple recovers it, provided the variable id
and visibility fit their slots (the coefficient id occupies the top and
need not be bounded for recovery). -/
theorem unpack_packRaw (c v vis : Nat) (hv : v < 2 ^ 29) (hvis : vis < 8) :
    Term.Unpack (packRaw c v vis) = (c, v, vis) := by
  simp only [Term.Unpack, packRaw, nbBitsVariableID, nbBitsVisibility, Prod.mk.injEq]
  norm_num
  refine ⟨?_, ?_, ?_⟩ <;> omega

/-- `Term.less` on raw-packed triples compares visibility descending,
then variable id ascending, ignoring the coefficient id. -/
theorem less_packRaw (c₁ v₁ vis₁ c₂ v₂ vis₂ : Nat)
    (hv₁ : v₁ < 2 ^ 29) (hvis₁ : vis₁ < 8)
    (hv₂ : v₂ < 2 ^ 29) (hvis₂ : vis₂ < 8) :
    Term.less (packRaw c₁ v₁ vis₁) (packRaw c₂ v₂ vis₂)
      = if vis₁ = vis₂ then decide (v₁ < v₂) else decide (vis₂ < vis₁) := by
  simp only [Term.less, unpack_packRaw _ _ _ hv₁ hvis₁, unpack_packRaw _ _ _ hv₂ hvis₂]

/-- The five valid visibility tags are exactly the values below 5. -/
theorem validVisibility_iff (v : Nat) : validVisibility v ↔ v < 5 := by
  show v = 0 ∨ v = 1 ∨ v = 2 ∨ v = 3 ∨ v = 4 ↔ v < 5
  omega

/-- The two-key comparison underlying `Term.less`. -/
theorem lessKey_iff (v₁ i₁ v₂ i₂ : Nat) :
    (if v₁ = v₂ then decide (i₁ < i₂) else decide (v₂ < v₁)) = true
      ↔ (v₂ < v₁ ∨ (v₁ = v₂ ∧ i₁ < i₂)) := by
  by_cases h : v₁ = v₂
  · subst h
    simp
  · simp [h]

/-- `Term.less` holds exactly when the left term has strictly greater
visibility, or equal visibility and strictly smaller variable id. -/
theorem less_iff (a b : Nat) :
    Term.less a b = true ↔
      (Term.VariableVisibility b < Term.VariableVisibility a
        ∨ (Term.VariableVisibility a = Term.VariableVisibility b
            ∧ Term.VariableID a < Term.VariableID b)) := by
  simp only [Term.less, Term.VariableVisibility, Term.VariableID]
  exact lessKey_iff _ _ _ _

/-! ### Claims -/

/-- C3: for every triple `(coefficientId, variableId, visibility)` within
the representable ranges, `pack` succeeds and `Unpack` (with the
projections derived from it) returns exactly the same triple: unpack is a
lossless inverse of pack. -/
theorem pack_unpack_round_trip (c v vis : Nat)
    (hc : c < 2 ^ nbBitsCoeffID) (hv : v < 2 ^ nbBitsVariableID)
    (hvis : validVisibility vis) :
    pack c v vis = Except.ok (packRaw c v vis)
      ∧ Term.Unpack (packRaw c v vis) = (c, v, vis)
      ∧ Term.CoeffID (packRaw c v vis) = c
      ∧ Term.VariableID (packRaw c v vis) = v
      ∧ Term.VariableVisibility (packRaw c v vis) = vis := by
  have h8 : vis < 8 := by
    have := (validVisibility_iff vis).mp hvis
    omega
  have hv' : v < 2 ^ 29 := by simpa [nbBitsVariableID] using hv
  have hU := unpack_packRaw c v vis hv' h8
  refine ⟨?_, hU, ?_, ?_, ?_⟩
  · rw [pack, if_neg (by simpa using hvis), if_neg (by push_neg; exact ⟨hc, hv⟩)]
  · rw [Term.CoeffID, hU]
  · rw [Term.VariableID, hU]
  · rw [Term.VariableVisibility, hU]

/-- C3 witness: the round trip at the concrete triple `(3, 5, 2)`. -/
theorem pack_unpack_round_trip_witness :
    pack 3 5 2 = Except.ok (packRaw 3 5 2)
      ∧ Term.Unpack (packRaw 3 5 2) = (3, 5, 2)
      ∧ Term.CoeffID (packRaw 3 5 2) = 3
      ∧ Term.VariableID (packRaw 3 5 2) = 5
      ∧ Term.VariableVisibility (packRaw 3 5 2) = 2 :=
  pack_unpack_round_trip 3 5 2 (by decide) (by decide) (by decide)

/-- C9: the visibility enumeration carries the declared priority values
`Unset = 0`, `Internal = 1`, `Secret = 2`, `Public = 3`, `Virtual = 4`,
ordered `Unset < Internal < Secret < Public < Virtual`, and the
well-formed tags are exactly these five values. -/
theorem visibility_enum :
    (Unset = 0 ∧ Internal = 1 ∧ Secret = 2 ∧ Public = 3 ∧ Virtual = 4)
    ∧ (Unset < Internal ∧ Internal < Secret ∧ Secret < Public ∧ Public < Virtual)
    ∧ (∀ v : Nat, validVisibility v ↔ v < 5) :=
  ⟨⟨rfl, rfl, rfl, rfl, rfl⟩, ⟨by decide, by decide, by decide, by decide⟩,
    validVisibility_iff⟩

/-- C1: the canonical order compares first by visibility, descending by
priority value, and, when the two visibilities are equal, ascending by
variable id; in particular a Virtual term ranks before an Internal term,
and among equal-visibility terms the one with variable id 2 ranks before
the one with id 5. -/
theorem canonical_order (c₁ v₁ vis₁ c₂ v₂ vis₂ : Nat)
    (hv₁ : v₁ < 2 ^ 29) (hvis₁ : vis₁ < 8) (hv₂ : v₂ < 2 ^ 29) (hvis₂ : vis₂ < 8) :
    (∀ (hi : 0 < [packRaw c₁ v₁ vis₁, packRaw c₂ v₂ vis₂].length)
        (hj : 1 < [packRaw c₁ v₁ vis₁, packRaw c₂ v₂ vis₂].length),
      LinearExpression.Less [packRaw c₁ v₁ vis₁, packRaw c₂ v₂ vis₂] 0 1 hi hj
        = (decide (vis₂ < vis₁) || (decide (vis₁ = vis₂) && decide (v₁ < v₂))))
    ∧ Term.less (packRaw c₁ v₁ Virtual) (packRaw c₂ v₂ Internal) = true
    ∧ Term.less (packRaw c₁ 2 vis₁) (packRaw c₂ 5 vis₁) = true := by
  refine ⟨?_, ?_, ?_⟩
  · intro hi hj
    show Term.less (packRaw c₁ v₁ vis₁) (packRaw c₂ v₂ vis₂) = _
    rw [less_packRaw _ _ _ _ _ _ hv₁ hvis₁ hv₂ hvis₂]
    by_cases h : vis₁ = vis₂
    · subst h
      simp
    · simp [h]
  · rw [less_packRaw _ _ _ _ _ _ hv₁ (by decide) hv₂ (by decide)]
    simp [Virtual, Internal]
  · rw [less_packRaw _ _ _ _ _ _ (by decide) hvis₁ (by decide) hvis₁]
    simp

/-- C1 witness: the canonical-order facts at concrete terms
`(coeff 0, id 1, Virtual)` and `(coeff 1, id 2, Internal)`. -/
theorem canonical_order_witness :
    (LinearExpression.Less [packRaw 0 1 4, packRaw 1 2 1] 0 1
        (by decide) (by decide)
      = (decide ((1 : Nat) < 4) || (decide ((4 : Nat) = 1) && decide ((1 : Nat) < 2))))
    ∧ Term.less (packRaw 0 1 Virtual) (packRaw 1 2 Internal) = true
    ∧ Term.less (packRaw 0 2 4) (packRaw 1 5 4) = true :=
  ⟨(canonical_order 0 1 4 1 2 1 (by decide) (by decide) (by decide) (by decide)).1
      (by decide) (by decide),
   (canonical_order 0 1 4 1 2 1 (by decide) (by decide) (by decide) (by decide)).2⟩

/-- C10: the canonical-order comparison never inspects the coefficient
id: two terms with equal visibility and equal variable id are mutually
incomparable regardless of their coefficient ids. -/
theorem order_ignores_coeff (c₁ c₂ v vis : Nat)
    (hv : v < 2 ^ 29) (hvis : vis < 8) :
    Term.less (packRaw c₁ v vis) (packRaw c₂ v vis) = false
      ∧ Term.less (packRaw c₂ v vis) (packRaw c₁ v vis) = false := by
  rw [less_packRaw _ _ _ _ _ _ hv hvis hv hvis, less_packRaw _ _ _ _ _ _ hv hvis hv hvis]
  simp

/-- C10 witness: coefficient ids 0 and 7 with shared variable id 3 and
visibility 2. -/
theorem order_ignores_coeff_witness :
    Term.less (packRaw 0 3 2) (packRaw 7 3 2) = false
      ∧ Term.less (packRaw 7 3 2) (packRaw 0 3 2) = false :=
  order_ignores_coeff 0 7 3 2 (by decide) (by decide)

/-- C2 counterexample: `packRaw 0 1 1` and `packRaw 1 1 1` are distinct
Terms (they differ only in coefficient id), yet neither ranks before the
other, so the comparison is not a total order over all Terms. -/
theorem term_order_not_total :
    packRaw 0 1 1 ≠ packRaw 1 1 1
      ∧ Term.less (packRaw 0 1 1) (packRaw 1 1 1) = false
      ∧ Term.less (packRaw 1 1 1) (packRaw 0 1 1) = false := by
  refine ⟨by decide, ?_, ?_⟩ <;>
    rw [less_packRaw _ _ _ _ _ _ (by decide) (by decide) (by decide) (by decide)] <;>
    simp

/-- C2 (amended): the Term comparison is a strict weak order: it is
irreflexive, antisymmetric and transitive, and it is total on Terms that
differ in visibility or in variable id; Terms that differ only in
coefficient id are mutually incomparable. -/
theorem term_order_strict_weak (a b c : Nat) :
    Term.less a a = false
    ∧ (Term.less a b = true → Term.less b a = false)
    ∧ (Term.less a b = true → Term.less b c = true → Term.less a c = true)
    ∧ ((Term.VariableVisibility a ≠ Term.VariableVisibility b
          ∨ Term.VariableID a ≠ Term.VariableID b)
        → Term.less a b = true ∨ Term.less b a = true) := by
  refine ⟨?_, ?_, ?_, ?_⟩
  · rw [← Bool.not_eq_true, less_iff]
    omega
  · intro h
    rw [less_iff] at h
    rw [← Bool.not_eq_true, less_iff]
    omega
  · intro h₁ h₂
    rw [less_iff] at h₁ h₂ ⊢
    omega
  · intro h
    rw [less_iff, less_iff]
    omega

/-- C2 witness: the strict-weak-order facts at the concrete terms 9
(visibility 1, id 1), 17 (visibility 1, id 2) and 25 (visibility 1,
id 3). -/
theorem term_order_strict_weak_witness :
    Term.less 9 9 = false
    ∧ Term.less 17 9 = false
    ∧ Term.less 9 25 = true
    ∧ (Term.less 9 17 = true ∨ Term.less 17 9 = true) :=
  ⟨(term_order_strict_weak 9 17 25).1,
   (term_order_strict_weak 9 17 25).2.1 (by decide),
   (term_order_strict_weak 9 17 25).2.2.1 (by decide) (by decide),
   (term_order_strict_weak 9 17 25).2.2.2 (by decide)⟩

/-! ### Rendering claims -/

/-- C5: each term renders as `<coefficient>*<visibility letter><variableId>`
with letters i/p/s/v/u for Internal/Public/Secret/Virtual/Unset, and the
two-term example over the table `[3, 7]` renders to `"3*i5 + 7*p2"`. -/
theorem term_render (c v : Nat) (coeffs : List Int) (x : Int)
    (hv : v < 2 ^ 29) (hx : coeffs[c]? = some x) :
    (Term.string (packRaw c v Internal) coeffs
        = Except.ok (toString x ++ "*" ++ "i" ++ toString v))
    ∧ (Term.string (packRaw c v Public) coeffs
        = Except.ok (toString x ++ "*" ++ "p" ++ toString v))
    ∧ (Term.string (packRaw c v Secret) coeffs
        = Except.ok (toString x ++ "*" ++ "s" ++ toString v))
    ∧ (Term.string (packRaw c v Virtual) coeffs
        = Except.ok (toString x ++ "*" ++ "v" ++ toString v))
    ∧ (Term.string (packRaw c v Unset) coeffs
        = Except.ok (toString x ++ "*" ++ "u" ++ toString v))
    ∧ LinearExpression.string [packRaw 0 5 Internal, packRaw 1 2 Public] [3, 7]
        = Except.ok "3*i5 + 7*p2" := by
  have h1 := unpack_packRaw c v 1 hv (by decide)
  have h3 := unpack_packRaw c v 3 hv (by decide)
  have h2 := unpack_packRaw c v 2 hv (by decide)
  have h4 := unpack_packRaw c v 4 hv (by decide)
  have h0 := unpack_packRaw c v 0 hv (by decide)
  refine ⟨?_, ?_, ?_, ?_, ?_, by rfl⟩ <;>
    simp [Term.string, Term.CoeffID, Term.VariableVisibility, Term.VariableID,
      Internal, Public, Secret, Virtual, Unset, h1, h3, h2, h4, h0, hx,
      bind, Except.bind]

/-- C5 witness: the Internal format at coefficient id 0, variable id 5,
table `[3, 7]`. -/
theorem term_render_witness :
    Term.string (packRaw 0 5 Internal) [3, 7]
      = Except.ok (toString (3 : Int) ++ "*" ++ "i" ++ toString (5 : Nat)) :=
  (term_render 0 5 [3, 7] 3 (by decide) rfl).1

/-- C4: rendering an R1C wraps the three rendered linear expressions as
`L[..] * R[..] = O[..]`, terms inside a section being joined by `" + "`,
and the concrete example over the table `[1, 1]` renders to
`"L[1*p1] * R[1*p1] = O[1*i2]"`. -/
theorem r1c_render (L R O : LinearExpression) (coeffs : List Int) (ls rs os : String)
    (hL : LinearExpression.string L coeffs = Except.ok ls)
    (hR : LinearExpression.string R coeffs = Except.ok rs)
    (hO : LinearExpression.string O coeffs = Except.ok os) :
    R1C.String ⟨L, R, O⟩ coeffs
      = Except.ok ("L[" ++ ls ++ "] * R[" ++ rs ++ "] = O[" ++ os ++ "]")
    ∧ (∀ (t : Nat) (rest : LinearExpression) (s r : String), rest ≠ [] →
        Term.string t coeffs = Except.ok s →
        LinearExpression.string rest coeffs = Except.ok r →
        LinearExpression.string (t :: rest) coeffs = Except.ok (s ++ " + " ++ r))
    ∧ R1C.String ⟨[packRaw 0 1 3], [packRaw 0 1 3], [packRaw 1 2 1]⟩ [1, 1]
      = Except.ok "L[1*p1] * R[1*p1] = O[1*i2]" := by
  refine ⟨?_, ?_, by rfl⟩
  · simp [R1C.String, hL, hR, hO, bind, Except.bind]
  · intro t rest s r hne hs hr
    match rest with
    | [] => exact absurd rfl hne
    | t₂ :: rest₂ => simp [LinearExpression.string, hs, hr, bind, Except.bind]

/-- C4 witness: the constraint rendering at the concrete
`L = [(0, 1, Public)]`, `R = [(0, 1, Public)]`, `O = [(1, 2, Internal)]`
with coefficient table `[1, 1]`. -/
theorem r1c_render_witness :
    R1C.String ⟨[packRaw 0 1 3], [packRaw 0 1 3], [packRaw 1 2 1]⟩ [1, 1]
      = Except.ok ("L[" ++ "1*p1" ++ "] * R[" ++ "1*p1" ++ "] = O[" ++ "1*i2" ++ "]") :=
  (r1c_render [packRaw 0 1 3] [packRaw 0 1 3] [packRaw 1 2 1] [1, 1]
    "1*p1" "1*p1" "1*i2" rfl rfl rfl).1

/-- C6: rendering a Term whose visibility tag is outside the five defined
values never produces a string; when the coefficient id is in range for
the table, the failure is exactly the `InvalidVisibility` panic of the
default switch branch. -/
theorem invalid_visibility_render (c v vis : Nat) (coeffs : List Int)
    (hv : v < 2 ^ 29) (h5 : 5 ≤ vis) (h8 : vis < 8) :
    ¬ validVisibility vis
    ∧ (c < coeffs.length →
        Term.string (packRaw c v vis) coeffs
          = Except.error RenderError.InvalidVisibility)
    ∧ ∀ s, Term.string (packRaw c v vis) coeffs ≠ Except.ok s := by
  have hU := unpack_packRaw c v vis hv h8
  have hvv : Term.VariableVisibility (packRaw c v vis) = vis := by
    rw [Term.VariableVisibility, hU]
  have hcid : Term.CoeffID (packRaw c v vis) = c := by
    rw [Term.CoeffID, hU]
  refine ⟨?_, ?_, ?_⟩
  · rw [validVisibility_iff]
    omega
  · intro hc
    obtain ⟨x, hx⟩ : ∃ x, coeffs[c]? = some x :=
      ⟨coeffs[c], List.getElem?_eq_getElem hc⟩
    interval_cases vis <;>
      simp_all [Term.string, bind, Except.bind]
  · intro s
    cases hget : coeffs[c]? with
    | none => simp [Term.string, hcid, hget, bind, Except.bind]
    | some x =>
      interval_cases vis <;>
        simp_all [Term.string, bind, Except.bind]

/-- C6 witness: visibility tag 6 at coefficient id 0 over the table
`[5]`. -/
theorem invalid_visibility_render_witness :
    Term.string (packRaw 0 1 6) [5] = Except.error RenderError.InvalidVisibility :=
  (invalid_visibility_render 0 1 6 [5] (by decide) (by decide) (by decide)).2.1
    (by decide)

/-- C7: when the coefficient id has no entry in the supplied coefficient
table, rendering the term fails with `IndexOutOfRange`. -/
theorem coeff_index_out_of_range (c v vis : Nat) (coeffs : List Int)
    (hv : v < 2 ^ 29) (h8 : vis < 8) (hc : coeffs.length ≤ c) :
    Term.string (packRaw c v vis) coeffs
      = Except.error RenderError.IndexOutOfRange := by
  have hU := unpack_packRaw c v vis hv h8
  have hcid : Term.CoeffID (packRaw c v vis) = c := by
    rw [Term.CoeffID, hU]
  have hnone : coeffs[c]? = none := by
    rw [List.getElem?_eq_none_iff]
    exact hc
  simp [Term.string, hcid, hnone, bind, Except.bind]

/-- C7 witness: coefficient id 3 against the one-entry table `[5]`. -/
theorem coeff_index_out_of_range_witness :
    Term.string (packRaw 3 1 2) [5] = Except.error RenderError.IndexOutOfRange :=
  coeff_index_out_of_range 3 1 2 [5] (by decide) (by decide) (by decide)

/-! ### Clone independence -/

/-- `Clone` copies the terms of the expression element for element, in
identical order. -/
theorem Clone_eq (l : LinearExpression) : LinearExpression.Clone l = l := by
  induction l with
  | nil => rfl
  | cons t ts ih => simp [LinearExpression.Clone, ih]

/-- A store of slice backing arrays.  Go's `make` + `copy` in `Clone`
allocates a fresh array; a slice value is modelled as an index into this
store, so that aliasing (or its absence) is expressible. -/
abbrev SliceStore := List LinearExpression

/-- Running `Clone` on the slice at handle `h`: a fresh backing array
holding the copied terms is appended to the store and its handle is
returned. -/
def cloneAlloc (σ : SliceStore) (h : Nat) : SliceStore × Nat :=
  (σ ++ [LinearExpression.Clone (σ.getD h [])], σ.length)

/-- In-place mutation of one element of the slice at handle `h`
(covering reordering and swapping, which are sequences of such
stores). -/
def storeSet (σ : SliceStore) (h i : Nat) (t : Nat) : SliceStore :=
  σ.set h ((σ.getD h []).set i t)

/-- C8: `Clone` returns a sequence equal to the original element for
element in identical order, held in fresh storage: mutating the clone
never changes the original, and mutating the original never changes the
clone. -/
theorem clone_independence (σ : SliceStore) (h : Nat) (hh : h < σ.length) :
    LinearExpression.Clone (σ.getD h []) = σ.getD h []
    ∧ (cloneAlloc σ h).1.getD (cloneAlloc σ h).2 [] = σ.getD h []
    ∧ (cloneAlloc σ h).2 ≠ h
    ∧ (∀ i t, (storeSet (cloneAlloc σ h).1 (cloneAlloc σ h).2 i t).getD h []
        = σ.getD h [])
    ∧ (∀ i t, (storeSet (cloneAlloc σ h).1 h i t).getD (cloneAlloc σ h).2 []
        = σ.getD h []) := by
  have hfresh : σ.length ≠ h := by omega
  have happl : ∀ n : Nat, n < σ.length →
      ∀ x : LinearExpression, (σ ++ [x]).getD n [] = σ.getD n [] := by
    intro n hn x
    rw [List.getD_eq_getElem?_getD, List.getElem?_append_left hn,
      ← List.getD_eq_getElem?_getD]
  have happr : ∀ x : LinearExpression, (σ ++ [x]).getD σ.length [] = x := by
    intro x
    rw [List.getD_eq_getElem?_getD, List.getElem?_append_right (Nat.le_refl _)]
    simp
  refine ⟨Clone_eq _, ?_, hfresh, ?_, ?_⟩
  · simp [cloneAlloc, Clone_eq, happr]
  · intro i t
    show ((σ ++ [_]).set σ.length _).getD h [] = σ.getD h []
    rw [List.getD_eq_getElem?_getD, List.getElem?_set_ne hfresh,
      ← List.getD_eq_getElem?_getD]
    exact happl h hh _
  · intro i t
    show ((σ ++ [_]).set h _).getD σ.length [] = σ.getD h []
    rw [List.getD_eq_getElem?_getD, List.getElem?_set_ne (by omega),
      ← List.getD_eq_getElem?_getD]
    simp [Clone_eq, happr]

/-- C8 witness: cloning the slice `[9]` held at handle 0 of a two-slice
store, then mutating the clone, leaves the original `[9]` unchanged. -/
theorem clone_independence_witness :
    (cloneAlloc [[9], [17]] 0).1.getD (cloneAlloc [[9], [17]] 0).2 [] = [9]
    ∧ (storeSet (cloneAlloc [[9], [17]] 0).1 (cloneAlloc [[9], [17]] 0).2 0 3).getD 0 []
        = [9] :=
  ⟨(clone_independence [[9], [17]] 0 (by decide)).2.1,
   (clone_independence [[9], [17]] 0 (by decide)).2.2.2.1 0 3⟩

end Compiled
